import Mathlib

/-!
Shallow embedding of the PortWatch scraper pipeline
(`src/hdx/scraper/portwatch/pipeline.py`) and proofs about it.

Modelling conventions:
* A Python dict row is an association list `Row α = List (String × Option α)`
  with (as in a dict) at most one entry per key; `none` models a value of
  `None`, a missing pair models an absent key.
* `datetime` values are identified with their position on the epoch
  timeline (an `Int`); `datetime.fromtimestamp` is strictly increasing in
  the timestamp, so every order-level statement (min/max, sorting) is
  unaffected by this identification.
* The paginated HTTP endpoint is modelled as the finite sequence of pages
  it would serve for offsets 0, limit, 2*limit, ...; a request beyond the
  provided sequence returns a payload with no features.
* Fallible download/parse steps return `Except`.
-/

namespace Portwatch

/-- A flattened attribute map (Python dict): association list from key to a
nullable value. -/
abbrev Row (α : Type) := List (String × Option α)

/-- Python `row.get(k)`: `none` when the key is absent or its value is null. -/
def rowGet {α : Type} (r : Row α) (k : String) : Option α :=
  match r.find? (fun p => p.1 = k) with
  | some p => p.2
  | none => none

/-- Python `k in row`: key presence, regardless of value nullity. -/
def hasKey {α : Type} (r : Row α) (k : String) : Bool :=
  r.any (fun p => p.1 = k)

/-- Python `row.pop(k, None)`: remove the key (no-op when absent). -/
def eraseKey {α : Type} (r : Row α) (k : String) : Row α :=
  r.filter (fun p => ¬ p.1 = k)

/-- Python `row[k] = v`: update in place when present, append otherwise. -/
def setKey {α : Type} (r : Row α) (k : String) (v : Option α) : Row α :=
  if hasKey r k then r.map (fun p => if p.1 = k then (k, v) else p)
  else r ++ [(k, v)]

theorem hasKey_eraseKey {α : Type} (r : Row α) (k : String) :
    hasKey (eraseKey r k) k = false := by
  simp only [hasKey, eraseKey, List.any_eq_false]
  intro p hp
  have := List.of_mem_filter hp
  simpa using this

/-! ### Paginated fetcher

All five retrieval operations share the same pagination loop
(`while True: download page at offset; break on empty page; accumulate;
break on short page; offset += limit`).  `fetch_from` runs that loop on the
modelled page sequence, returning the list of offsets actually requested
(one per round trip, so its length is the number of requests) together with
the accumulated features. -/

def fetch_from {α : Type} (limit : Nat) (offset : Nat) :
    List (List α) → List Nat × List α
  | [] => ([offset], [])
  | page :: rest =>
    if page.isEmpty then ([offset], [])
    else if page.length < limit then ([offset], page)
    else
      let r := fetch_from limit (offset + limit) rest
      (offset :: r.1, page ++ r.2)

/-- The pagination loop started at offset 0, as in every `get_*` method. -/
def fetch_pages {α : Type} (limit : Nat) (pages : List (List α)) :
    List Nat × List α :=
  fetch_from limit 0 pages

/-- The accumulated features are exactly the concatenation, in order, of the
pages consumed (one page per request). -/
theorem fetch_from_join {α : Type} (limit : Nat) :
    ∀ (pages : List (List α)) (offset : Nat),
      (fetch_from limit offset pages).2 =
        (pages.take (fetch_from limit offset pages).1.length).flatten
  | [], _ => rfl
  | page :: rest, offset => by
    by_cases h0 : page.isEmpty
    · simp [fetch_from, h0, List.isEmpty_iff.mp h0]
    · by_cases h1 : page.length < limit
      · simp [fetch_from, h0, h1]
      · have ih := fetch_from_join limit rest (offset + limit)
        simp only [fetch_from, h0, Bool.false_eq_true, if_false, if_neg h1,
          List.length_cons, List.take_succ_cons, List.flatten_cons]
        rw [ih]

/-- The requested offsets form the arithmetic progression
`offset, offset + limit, offset + 2*limit, ...`. -/
theorem fetch_from_offsets {α : Type} (limit : Nat) :
    ∀ (pages : List (List α)) (offset : Nat),
      (fetch_from limit offset pages).1 =
        (List.range (fetch_from limit offset pages).1.length).map
          (fun i => offset + limit * i)
  | [], offset => by simp [fetch_from, List.range_succ]
  | page :: rest, offset => by
    by_cases h0 : page.isEmpty
    · simp [fetch_from, h0, List.range_succ]
    · by_cases h1 : page.length < limit
      · simp [fetch_from, h0, h1, List.range_succ]
      · have ih := fetch_from_offsets limit rest (offset + limit)
        simp only [fetch_from, h0, Bool.false_eq_true, if_false, if_neg h1]
        rw [ih]
        simp only [List.length_cons, List.length_map, List.length_range,
          List.range_succ_eq_map, List.map_cons, List.map_map]
        refine List.cons_eq_cons.mpr ⟨by simp, ?_⟩
        · apply List.map_congr_left
          intro i _
          simp only [Function.comp_apply, Nat.mul_succ]
          omega

/-! ### Geospatial endpoints: `get_ports`, `get_chokepoints`, `get_disruptions`

A GeoJSON feature is an attribute map (`properties`, possibly absent or
null) plus a geometry payload, which this code never inspects (type
parameter `γ`). -/

structure GeoFeature (γ α : Type) where
  properties : Option (Row α)
  geometry : γ
deriving DecidableEq

structure FeatureCollection (γ α : Type) where
  features : List (GeoFeature γ α)
deriving DecidableEq

/-- Loop body of `get_ports`/`get_chokepoints` for one feature:
`props = feature.get("properties", {}) or {}`, `props.pop("ObjectId", None)`,
`feature["properties"] = props`, append feature and append row. -/
def process_port_feature {γ α : Type} (f : GeoFeature γ α) :
    GeoFeature γ α × Row α :=
  let props := eraseKey (f.properties.getD []) "ObjectId"
  ({ f with properties := some props }, props)

/-- Loop body of `get_disruptions` for one feature: identical except that
`ObjectId` is NOT popped. -/
def process_disruption_feature {γ α : Type} (f : GeoFeature γ α) :
    GeoFeature γ α × Row α :=
  let props := f.properties.getD []
  ({ f with properties := some props }, props)

def get_ports {γ α : Type} (limit : Nat)
    (pages : List (List (GeoFeature γ α))) :
    List (Row α) × FeatureCollection γ α :=
  let processed := ((fetch_pages limit pages).2).map process_port_feature
  (processed.map Prod.snd, ⟨processed.map Prod.fst⟩)

def get_chokepoints {γ α : Type} (limit : Nat)
    (pages : List (List (GeoFeature γ α))) :
    List (Row α) × FeatureCollection γ α :=
  let processed := ((fetch_pages limit pages).2).map process_port_feature
  (processed.map Prod.snd, ⟨processed.map Prod.fst⟩)

def get_disruptions {γ α : Type} (limit : Nat)
    (pages : List (List (GeoFeature γ α))) :
    List (Row α) × FeatureCollection γ α :=
  let processed := ((fetch_pages limit pages).2).map process_disruption_feature
  (processed.map Prod.snd, ⟨processed.map Prod.fst⟩)

/-! ### Daily endpoints: `get_daily_chokepoints`, `get_daily_ports` -/

/-- A plain (f=json) feature: `{"attributes": {...}}`. -/
structure DailyFeature (α : Type) where
  attributes : Option (Row α)
deriving DecidableEq

/-- `datetime.fromtimestamp(ms / 1000, tz=timezone.utc)`, identified with
its position on the epoch timeline; the conversion is strictly increasing
in `ms`, so order-level statements are unaffected. -/
def ms_to_datetime (ms : Int) : Int :=
  ms

/-- Post-fetch normalization of one daily row:
`row["date"] = datetime.fromtimestamp(row["date"] / 1000, tz=utc)` then
`row.pop("ObjectId", None)`.  (The source raises `KeyError` when `date` is
absent; such rows do not occur in the service payloads and are left
unchanged here.) -/
def convert_daily_row (r : Row Int) : Row Int :=
  let r1 :=
    match rowGet r "date" with
    | some ms => setKey r "date" (some (ms_to_datetime ms))
    | none => r
  eraseKey r1 "ObjectId"

/-- Sort key `lambda x: x["date"]`. -/
def dateKey (r : Row Int) : Int :=
  (rowGet r "date").getD 0

/-- "comes no later than in descending date order": the relation realized by
`sorted(all_data, key=lambda x: x["date"], reverse=True)`. -/
def dateGE (a b : Row Int) : Prop :=
  dateKey b ≤ dateKey a

instance : DecidableRel dateGE :=
  fun a b => decidable_of_iff (dateKey b ≤ dateKey a) Iff.rfl

instance : IsTotal (Row Int) dateGE :=
  ⟨fun a b => le_total (dateKey b) (dateKey a)⟩

instance : IsTrans (Row Int) dateGE :=
  ⟨fun _ _ _ h1 h2 => le_trans h2 h1⟩

/-- `sorted(all_data, key=lambda x: x["date"], reverse=True)`.  Python's
sort is stable; all stable sorts agree on their output, so the stable
`insertionSort` with the non-strict descending relation models it exactly. -/
def sort_daily_rows (rows : List (Row Int)) : List (Row Int) :=
  List.insertionSort dateGE rows

def get_daily_chokepoints (limit : Nat)
    (pages : List (List (DailyFeature Int))) : List (Row Int) :=
  let all_data := ((fetch_pages limit pages).2).map (fun f => f.attributes.getD [])
  sort_daily_rows (all_data.map convert_daily_row)

/-- The `get_daily_ports` per-request download: on a `JSONDecodeError` from
the first download, one direct re-download is attempted and parsed; if that
also fails, the ORIGINAL error is re-raised.  The `Nat` counts the
diagnostic re-downloads issued for this request (0 or 1). -/
def try_parse_page {ε π : Type} (download : Except ε π) (retry : Except ε π) :
    Except ε (π × Nat) :=
  match download with
  | Except.ok data => Except.ok (data, 0)
  | Except.error exc =>
    match retry with
    | Except.ok data => Except.ok (data, 1)
    | Except.error _ => Except.error exc

/-- Pagination loop of `get_daily_ports`: each round trip is modelled by
the pair (first download result, diagnostic re-download result). -/
def fetch_daily_from {ε α : Type} (limit : Nat) :
    List (Except ε (List α) × Except ε (List α)) → Except ε (List α × Nat)
  | [] => Except.ok ([], 0)
  | resp :: rest =>
    match try_parse_page resp.1 resp.2 with
    | Except.error e => Except.error e
    | Except.ok (page, k) =>
      if page.isEmpty then Except.ok ([], k)
      else if page.length < limit then Except.ok (page, k)
      else
        match fetch_daily_from limit rest with
        | Except.error e => Except.error e
        | Except.ok (tail, k2) => Except.ok (page ++ tail, k + k2)

def get_daily_ports {ε : Type} (limit : Nat)
    (responses : List (Except ε (List (DailyFeature Int)) ×
      Except ε (List (DailyFeature Int)))) :
    Except ε (List (Row Int) × Nat) :=
  (fetch_daily_from limit responses).map
    (fun p =>
      (sort_daily_rows ((p.1.map (fun f => f.attributes.getD [])).map
        convert_daily_row), p.2))

/-! ### `get_port_countries` -/

/-- The loop of `get_port_countries`: collect each feature's `ISO3` value
when it is truthy (present, non-null and non-empty). -/
def collectISO3 : List (Row String) → List String
  | [] => []
  | f :: rest =>
    match rowGet f "ISO3" with
    | some s => if s = "" then collectISO3 rest else s :: collectISO3 rest
    | none => collectISO3 rest

/-- Boolean code-point-lexicographic comparison on character lists; this is
how Python compares strings when sorting. -/
def charListLe : List Char → List Char → Bool
  | [], _ => true
  | _ :: _, [] => false
  | a :: as, b :: bs =>
    if a.toNat < b.toNat then true
    else if b.toNat < a.toNat then false
    else charListLe as bs

/-- Python string `<=` (code-point lexicographic). -/
def strLe (a b : String) : Prop :=
  charListLe a.data b.data = true

instance : DecidableRel strLe :=
  fun a b => inferInstanceAs (Decidable (charListLe a.data b.data = true))

/-- `sorted(iso3_set)`: the distinct collected values in ascending order. -/
def get_port_countries (features : List (Row String)) : List String :=
  List.insertionSort strLe (collectISO3 features).dedup

/-! ### `get_date_range` -/

def optToList {α : Type} : Option α → List α
  | some v => [v]
  | none => []

/-- Per-row contribution to `(from_dates, to_dates)` in `get_date_range`:
interval rows are recognized by KEY PRESENCE of both `fromdate` and
`todate` and contribute their non-null bounds; every other row contributes
its non-null `date` value to both sides. -/
def row_candidates (row : Row Int) : List Int × List Int :=
  if hasKey row "fromdate" && hasKey row "todate" then
    (optToList (rowGet row "fromdate"), optToList (rowGet row "todate"))
  else
    match rowGet row "date" with
    | some d => ([d], [d])
    | none => ([], [])

/-- The accumulated `(from_dates, to_dates)` lists of `get_date_range`. -/
def date_candidates : List (Row Int) → List Int × List Int
  | [] => ([], [])
  | row :: rest =>
    let c := row_candidates row
    let r := date_candidates rest
    (c.1 ++ r.1, c.2 ++ r.2)

/-- Python `min` over a possibly-empty list. -/
def listMin : List Int → Option Int
  | [] => none
  | x :: xs => some (xs.foldl min x)

/-- Python `max` over a possibly-empty list. -/
def listMax : List Int → Option Int
  | [] => none
  | x :: xs => some (xs.foldl max x)

/-- `Pipeline.get_date_range`: `(None, None)` when `from_dates` or
`to_dates` is empty, else `(min(from_dates), max(to_dates))`. -/
def get_date_range (data : List (Row Int)) : Option Int × Option Int :=
  let fs := (date_candidates data).1
  let ts := (date_candidates data).2
  if fs.isEmpty || ts.isEmpty then (none, none)
  else (listMin fs, listMax ts)

/-! ### Dataset generation

The publishing client (`Dataset`, `Resource`, HDX configuration) is an
external collaborator; `GeneratedDataset` records exactly what this code
hands to it: name/title, CSV headers (keys of the first row) and rows, the
GeoJSON payload written to the staging file (when any), and the time period
passed to `set_time_period` (when derived from the data; the wall-clock
periods of the ports/chokepoints datasets are outside the model). -/

structure GeneratedDataset (γ α : Type) where
  name : String
  title : String
  headers : List String
  csv_rows : List (Row α)
  geojson_file : Option (FeatureCollection γ α)
  time_period : Option (Option Int × Option Int)
deriving DecidableEq

/-- External `slugify` collaborator, modelled as lowercasing and replacing
every non-alphanumeric character with a hyphen. -/
def slugify (s : String) : String :=
  String.map (fun c => if c.isAlphanum then c else '-') s.toLower

def generate_ports_dataset {γ : Type} (ports_rows : List (Row Int))
    (ports_geojson : FeatureCollection γ Int) :
    Option (GeneratedDataset γ Int) :=
  match ports_rows with
  | [] => none
  | first :: _ =>
    some
      { name := slugify "Ports"
        title := "Ports"
        headers := first.map Prod.fst
        csv_rows := ports_rows
        geojson_file := some ports_geojson
        time_period := none }

def generate_chokepoints_dataset {γ : Type} (chokepoints_rows : List (Row Int))
    (chokepoints_geojson : FeatureCollection γ Int) :
    Option (GeneratedDataset γ Int) :=
  match chokepoints_rows with
  | [] => none
  | first :: _ =>
    some
      { name := slugify "Chokepoints"
        title := "Chokepoints"
        headers := first.map Prod.fst
        csv_rows := chokepoints_rows
        geojson_file := some chokepoints_geojson
        time_period := none }

def generate_daily_chokepoints_dataset
    (daily_chokepoints_rows : List (Row Int)) :
    Option (GeneratedDataset Unit Int) :=
  match daily_chokepoints_rows with
  | [] => none
  | first :: _ =>
    some
      { name := slugify "Daily Chokepoint Transit Calls and Shipment Volume Estimates"
        title := "Daily Chokepoint Transit Calls and Shipment Volume Estimates"
        headers := first.map Prod.fst
        csv_rows := daily_chokepoints_rows
        geojson_file := none
        time_period := some (get_date_range daily_chokepoints_rows) }

/-- `country_name` models the external
`Country.get_country_name_from_iso3` lookup and `country_ok` whether
`dataset.add_country_location` succeeds (it raises `HDXError` for an
unrecognized code, upon which the source returns `None`). -/
def generate_daily_ports_dataset (country_name : String) (country_ok : Bool)
    (data_by_country : List (Row Int)) : Option (GeneratedDataset Unit Int) :=
  match data_by_country with
  | [] => none
  | first :: _ =>
    let title := country_name ++ ": Daily Port Activity Data and Shipment Estimates"
    if country_ok then
      some
        { name := slugify title
          title := title
          headers := first.map Prod.fst
          csv_rows := data_by_country
          geojson_file := none
          time_period := some (get_date_range data_by_country) }
    else none

/-- Per-row date formatting inside `generate_disruptions_dataset`: convert
`fromdate`, default a null/absent `todate` to the (converted) `fromdate`
and convert it otherwise, then pop `ObjectId`.  (The source raises
`TypeError` on a null `fromdate`; such rows are left unconverted here.) -/
def format_disruption_row (r : Row Int) : Row Int :=
  let r1 :=
    match rowGet r "fromdate" with
    | some ms => setKey r "fromdate" (some (ms_to_datetime ms))
    | none => r
  let r2 :=
    match rowGet r1 "todate" with
    | some ms => setKey r1 "todate" (some (ms_to_datetime ms))
    | none => setKey r1 "todate" (rowGet r1 "fromdate")
  eraseKey r2 "ObjectId"

/-- `generate_disruptions_dataset`: the GeoJSON staging file is serialized
from `disruptions_geojson` BEFORE the row-formatting loop runs, so the
file contents are the unformatted feature collection; the CSV headers,
rows and time period come from the formatted rows. -/
def generate_disruptions_dataset {γ : Type} (disruptions_rows : List (Row Int))
    (disruptions_geojson : FeatureCollection γ Int) :
    Option (GeneratedDataset γ Int) :=
  match disruptions_rows with
  | [] => none
  | first :: _ =>
    let rows := disruptions_rows.map format_disruption_row
    some
      { name := slugify "Disruptions"
        title := "Disruptions"
        headers := (format_disruption_row first).map Prod.fst
        csv_rows := rows
        geojson_file := some disruptions_geojson
        time_period := some (get_date_range rows) }

/-! ### Helper lemmas -/

theorem foldl_min_spec : ∀ (xs : List Int) (x : Int),
    xs.foldl min x ∈ x :: xs ∧ ∀ y ∈ x :: xs, xs.foldl min x ≤ y
  | [], x => by simp
  | z :: zs, x => by
    have ih := foldl_min_spec zs (min x z)
    have hred : (z :: zs).foldl min x = zs.foldl min (min x z) := rfl
    constructor
    · rcases List.mem_cons.mp ih.1 with h | h
      · rcases min_choice x z with hc | hc <;>
          rw [hred, h, hc] <;> simp
      · rw [hred]
        simp [h]
    · intro y hy
      have hle : (z :: zs).foldl min x ≤ min x z :=
        hred ▸ ih.2 (min x z) (List.mem_cons_self _ _)
      rcases List.mem_cons.mp hy with h | h
      · subst h
        exact le_trans hle (min_le_left _ _)
      · rcases List.mem_cons.mp h with h2 | h2
        · subst h2
          exact le_trans hle (min_le_right _ _)
        · rw [hred]
          exact ih.2 y (List.mem_cons_of_mem _ h2)

theorem foldl_max_spec : ∀ (xs : List Int) (x : Int),
    xs.foldl max x ∈ x :: xs ∧ ∀ y ∈ x :: xs, y ≤ xs.foldl max x
  | [], x => by simp
  | z :: zs, x => by
    have ih := foldl_max_spec zs (max x z)
    have hred : (z :: zs).foldl max x = zs.foldl max (max x z) := rfl
    constructor
    · rcases List.mem_cons.mp ih.1 with h | h
      · rcases max_choice x z with hc | hc <;>
          rw [hred, h, hc] <;> simp
      · rw [hred]
        simp [h]
    · intro y hy
      have hle : max x z ≤ (z :: zs).foldl max x :=
        hred ▸ ih.2 (max x z) (List.mem_cons_self _ _)
      rcases List.mem_cons.mp hy with h | h
      · subst h
        exact le_trans (le_max_left _ _) hle
      · rcases List.mem_cons.mp h with h2 | h2
        · subst h2
          exact le_trans (le_max_right _ _) hle
        · rw [hred]
          exact ih.2 y (List.mem_cons_of_mem _ h2)

theorem listMin_spec (xs : List Int) (h : xs ≠ []) :
    ∃ m, listMin xs = some m ∧ m ∈ xs ∧ ∀ y ∈ xs, m ≤ y := by
  match xs with
  | [] => exact absurd rfl h
  | x :: t =>
    exact ⟨t.foldl min x, rfl, (foldl_min_spec t x).1, (foldl_min_spec t x).2⟩

theorem listMax_spec (xs : List Int) (h : xs ≠ []) :
    ∃ m, listMax xs = some m ∧ m ∈ xs ∧ ∀ y ∈ xs, y ≤ m := by
  match xs with
  | [] => exact absurd rfl h
  | x :: t =>
    exact ⟨t.foldl max x, rfl, (foldl_max_spec t x).1, (foldl_max_spec t x).2⟩

theorem mem_collectISO3 (s : String) : ∀ (features : List (Row String)),
    s ∈ collectISO3 features ↔
      ∃ f ∈ features, rowGet f "ISO3" = some s ∧ s ≠ ""
  | [] => by simp [collectISO3]
  | f :: rest => by
    have ih := mem_collectISO3 s rest
    constructor
    · intro h
      revert h
      simp only [collectISO3]
      cases hi : rowGet f "ISO3" with
      | none =>
        intro h
        obtain ⟨g, hg, hp⟩ := ih.mp h
        exact ⟨g, List.mem_cons_of_mem _ hg, hp⟩
      | some v =>
        show s ∈ (if v = "" then collectISO3 rest else v :: collectISO3 rest) → _
        by_cases hv : v = ""
        · rw [if_pos hv]
          intro h
          obtain ⟨g, hg, hp⟩ := ih.mp h
          exact ⟨g, List.mem_cons_of_mem _ hg, hp⟩
        · rw [if_neg hv]
          intro h
          rcases List.mem_cons.mp h with rfl | h2
          · exact ⟨f, List.mem_cons_self _ _, hi, hv⟩
          · obtain ⟨g, hg, hp⟩ := ih.mp h2
            exact ⟨g, List.mem_cons_of_mem _ hg, hp⟩
    · rintro ⟨g, hg, hp, hs⟩
      rcases List.mem_cons.mp hg with rfl | h2
      · simp only [collectISO3, hp, if_neg hs]
        exact List.mem_cons_self _ _
      · have hmem := ih.mpr ⟨g, h2, hp, hs⟩
        simp only [collectISO3]
        cases hi : rowGet f "ISO3" with
        | none => exact hmem
        | some v =>
          show s ∈ (if v = "" then collectISO3 rest else v :: collectISO3 rest)
          by_cases hv : v = ""
          · rw [if_pos hv]
            exact hmem
          · rw [if_neg hv]
            exact List.mem_cons_of_mem _ hmem

/-- A stable sort leaves each equivalence class of the ordering untouched:
filtering by a predicate that only holds on pairwise-related elements
commutes with `insertionSort`. -/
theorem filter_insertionSort {α : Type} (r : α → α → Prop) [DecidableRel r]
    (q : α → Bool) (hq : ∀ a b, q a = true → q b = true → r a b)
    (l : List α) :
    (List.insertionSort r l).filter q = l.filter q := by
  have hpair : (l.filter q).Pairwise r :=
    List.pairwise_of_forall_mem_list (fun a ha b hb =>
      hq a b (List.of_mem_filter ha) (List.of_mem_filter hb))
  have hsub : List.Sublist (l.filter q) (List.insertionSort r l) :=
    List.sublist_insertionSort hpair (List.filter_sublist l)
  have hsub2 : List.Sublist ((l.filter q).filter q)
      ((List.insertionSort r l).filter q) :=
    hsub.filter q
  have heq : (l.filter q).filter q = l.filter q := by
    simp [List.filter_filter]
  rw [heq] at hsub2
  have hperm : List.Perm ((List.insertionSort r l).filter q) (l.filter q) :=
    (List.perm_insertionSort r l).filter q
  exact (hsub2.eq_of_length hperm.length_eq.symm).symm

/-- The accumulated features do not depend on the running offset. -/
theorem fetch_from_snd_offset {α : Type} (limit : Nat) :
    ∀ (pages : List (List α)) (o o' : Nat),
      (fetch_from limit o pages).2 = (fetch_from limit o' pages).2
  | [], _, _ => rfl
  | page :: rest, o, o' => by
    by_cases h0 : page.isEmpty
    · simp [fetch_from, h0]
    · by_cases h1 : page.length < limit
      · simp [fetch_from, h0, h1]
      · simp only [fetch_from, h0, Bool.false_eq_true, if_false, if_neg h1]
        rw [fetch_from_snd_offset limit rest (o + limit) (o' + limit)]

/-- When every download parses on the first attempt, the `get_daily_ports`
loop accumulates exactly what the shared pagination loop does, issuing no
diagnostic re-downloads. -/
theorem fetch_daily_from_all_ok {ε α : Type} (limit : Nat) :
    ∀ (pages : List (List α)),
      @fetch_daily_from ε α limit
        (pages.map (fun p => (Except.ok p, Except.ok p))) =
        Except.ok ((fetch_pages limit pages).2, 0)
  | [] => rfl
  | page :: rest => by
    have ih := @fetch_daily_from_all_ok ε α limit rest
    by_cases h0 : page.isEmpty
    · simp [fetch_daily_from, try_parse_page, fetch_pages, fetch_from, h0]
    · by_cases h1 : page.length < limit
      · simp [fetch_daily_from, try_parse_page, fetch_pages, fetch_from, h0, h1]
      · simp only [List.map_cons, fetch_daily_from, try_parse_page, h0,
          Bool.false_eq_true, if_false, if_neg h1, ih]
        simp only [fetch_pages, fetch_from, h0, Bool.false_eq_true, if_false,
          if_neg h1]
        rw [fetch_from_snd_offset limit rest (0 + limit) 0]

/-- One full page: request it and continue at the next offset. -/
theorem fetch_from_cons_full {α : Type} (limit offset : Nat) (page : List α)
    (rest : List (List α)) (hne : page.isEmpty = false)
    (hfull : ¬ page.length < limit) :
    fetch_from limit offset (page :: rest) =
      (offset :: (fetch_from limit (offset + limit) rest).1,
        page ++ (fetch_from limit (offset + limit) rest).2) := by
  simp [fetch_from, hne, hfull]

/-- One short nonempty page: request it and stop. -/
theorem fetch_from_cons_short {α : Type} (limit offset : Nat) (page : List α)
    (rest : List (List α)) (hne : page.isEmpty = false)
    (hshort : page.length < limit) :
    fetch_from limit offset (page :: rest) = ([offset], page) := by
  simp [fetch_from, hne, hshort]

/-- One empty page: request it and stop with nothing. -/
theorem fetch_from_cons_empty {α : Type} (limit offset : Nat)
    (rest : List (List α)) :
    fetch_from limit offset ([] :: rest) = ([offset], []) := by
  simp [fetch_from]

theorem isEmpty_replicate_succ {α : Type} (n : Nat) (x : α) :
    (List.replicate (n + 1) x).isEmpty = false := by
  rw [List.replicate_succ]
  rfl

theorem charListLe_total : ∀ (x y : List Char),
    charListLe x y = true ∨ charListLe y x = true
  | [], _ => Or.inl rfl
  | _ :: _, [] => Or.inr rfl
  | a :: as, b :: bs => by
    by_cases h1 : a.toNat < b.toNat
    · left
      simp [charListLe, h1]
    · by_cases h2 : b.toNat < a.toNat
      · right
        simp [charListLe, h2]
      · rcases charListLe_total as bs with h | h
        · left
          simp [charListLe, h1, h2, h]
        · right
          simp [charListLe, h1, h2, h]

theorem charListLe_trans : ∀ (x y z : List Char),
    charListLe x y = true → charListLe y z = true → charListLe x z = true
  | [], _, _, _, _ => rfl
  | _ :: _, [], _, h1, _ => by simp [charListLe] at h1
  | _ :: _, _ :: _, [], _, h2 => by simp [charListLe] at h2
  | a :: as, b :: bs, c :: cs, h1, h2 => by
    simp only [charListLe] at h1 h2 ⊢
    by_cases hba : b.toNat < a.toNat
    · rw [if_neg (by omega), if_pos hba] at h1
      exact absurd h1 (by simp)
    · by_cases hcb : c.toNat < b.toNat
      · rw [if_neg (by omega), if_pos hcb] at h2
        exact absurd h2 (by simp)
      · by_cases hac : a.toNat < c.toNat
        · rw [if_pos hac]
        · rw [if_neg hac, if_neg (by omega)]
          have h1' : charListLe as bs = true := by
            by_cases hab : a.toNat < b.toNat
            · omega
            · rw [if_neg hab, if_neg hba] at h1
              exact h1
          have h2' : charListLe bs cs = true := by
            by_cases hbc : b.toNat < c.toNat
            · omega
            · rw [if_neg hbc, if_neg hcb] at h2
              exact h2
          exact charListLe_trans as bs cs h1' h2'

/-! ### Claims -/

/-- C1: every fetch operation paginates with the shared loop: requests go
out at offsets 0, limit, 2*limit, ... (one request per page); the loop
stops at the first empty or short page, so a short (partially full) page is
never followed by another request; page sizes [1000, 1000, 400] yield
exactly 3 requests and 2400 accumulated records, and [1000, 0] yields
exactly 2 requests and 1000 records; the accumulated result is the
concatenation of the consumed pages, preserving page order and within-page
order.  The final conjuncts carry this over to the five endpoint
operations: each produces one output row per accumulated feature, and the
`get_daily_ports` loop with all downloads parsing agrees with the shared
loop. -/
theorem claim_C1 (limit : Nat) (pages : List (List Nat))
    (page : List Nat) (rest : List (List Nat))
    (hne : page.isEmpty = false) (hshort : page.length < limit) :
    ((fetch_pages limit pages).2 =
      (pages.take (fetch_pages limit pages).1.length).flatten)
    ∧ ((fetch_pages limit pages).1 =
      (List.range (fetch_pages limit pages).1.length).map (fun i => limit * i))
    ∧ fetch_pages limit (page :: rest) = ([0], page)
    ∧ ((fetch_pages 1000 [List.replicate 1000 (0:Nat), List.replicate 1000 1,
          List.replicate 400 2]).1.length = 3
        ∧ (fetch_pages 1000 [List.replicate 1000 (0:Nat), List.replicate 1000 1,
          List.replicate 400 2]).2.length = 2400)
    ∧ ((fetch_pages 1000 [List.replicate 1000 (0:Nat), []]).1.length = 2
        ∧ (fetch_pages 1000 [List.replicate 1000 (0:Nat), []]).2.length = 1000)
    ∧ (∀ (gpages : List (List (GeoFeature Unit Int))),
        (get_ports limit gpages).1.length = (fetch_pages limit gpages).2.length
        ∧ (get_chokepoints limit gpages).1.length =
            (fetch_pages limit gpages).2.length
        ∧ (get_disruptions limit gpages).1.length =
            (fetch_pages limit gpages).2.length)
    ∧ (∀ (dpages : List (List (DailyFeature Int))),
        (get_daily_chokepoints limit dpages).length =
          (fetch_pages limit dpages).2.length)
    ∧ (∀ (dpages : List (List (DailyFeature Int))),
        @fetch_daily_from Unit (DailyFeature Int) limit
          (dpages.map (fun p => (Except.ok p, Except.ok p))) =
          Except.ok ((fetch_pages limit dpages).2, 0)) := by
  refine ⟨fetch_from_join limit pages 0, ?_, ?_, ?_, ?_, ?_, ?_,
    fun dpages => fetch_daily_from_all_ok limit dpages⟩
  · have h := fetch_from_offsets limit pages 0
    simpa using h
  · simp [fetch_pages, fetch_from, hne, hshort]
  · have hA : (List.replicate 1000 (0:Nat)).isEmpty = false :=
      isEmpty_replicate_succ 999 0
    have hB : (List.replicate 1000 (1:Nat)).isEmpty = false :=
      isEmpty_replicate_succ 999 1
    have hC : (List.replicate 400 (2:Nat)).isEmpty = false :=
      isEmpty_replicate_succ 399 2
    have e1 := fetch_from_cons_full 1000 0 (List.replicate 1000 (0:Nat))
      [List.replicate 1000 1, List.replicate 400 2] hA
      (by rw [List.length_replicate]; omega)
    have e2 := fetch_from_cons_full 1000 1000 (List.replicate 1000 (1:Nat))
      [List.replicate 400 2] hB (by rw [List.length_replicate]; omega)
    have e3 := fetch_from_cons_short 1000 2000 (List.replicate 400 (2:Nat))
      [] hC (by rw [List.length_replicate]; omega)
    rw [fetch_pages, e1]
    simp only [Nat.zero_add]
    rw [e2]
    have h2k : (1000:Nat) + 1000 = 2000 := rfl
    rw [h2k, e3]
    refine ⟨rfl, ?_⟩
    rw [List.length_append, List.length_append, List.length_replicate,
      List.length_replicate, List.length_replicate]
  · have hA : (List.replicate 1000 (0:Nat)).isEmpty = false :=
      isEmpty_replicate_succ 999 0
    have e1 := fetch_from_cons_full 1000 0 (List.replicate 1000 (0:Nat))
      [[]] hA (by rw [List.length_replicate]; omega)
    have e2 := @fetch_from_cons_empty Nat 1000 1000 []
    rw [fetch_pages, e1]
    simp only [Nat.zero_add]
    rw [e2]
    refine ⟨rfl, ?_⟩
    rw [List.length_append, List.length_replicate]
    rfl
  · intro gpages
    refine ⟨?_, ?_, ?_⟩ <;> simp [get_ports, get_chokepoints, get_disruptions]
  · intro dpages
    simp [get_daily_chokepoints, sort_daily_rows, List.length_insertionSort]

/-- Witness for C1: a concrete partially full first page ([5], page size
1000) satisfies the hypotheses, and the loop stops after that single
request. -/
theorem claim_C1_witness :
    (([(5:Nat)] : List Nat).isEmpty = false
      ∧ ([(5:Nat)] : List Nat).length < 1000)
    ∧ fetch_pages 1000 [[(5:Nat)]] = ([0], [5]) := by
  refine ⟨⟨by decide, by decide⟩, ?_⟩
  exact (claim_C1 1000 [] [5] [] (by decide) (by decide)).2.2.1

/-- C2 counterexample: a single interval row with a non-null `fromdate` and
a null `todate` IS date-bearing (its `fromdate` is a min-candidate), yet
`get_date_range` returns `(None, None)`, because the max-candidate list
alone is empty; the claim's "(null, null) exactly when both candidate sets
are empty" is false on the code. -/
theorem claim_C2_cex :
    get_date_range [[("fromdate", some (5:Int)), ("todate", (none : Option Int))]] =
      (none, none)
    ∧ (date_candidates [[("fromdate", some (5:Int)),
        ("todate", (none : Option Int))]]).1 = [5] := by
  decide

/-- C2 (amended): `get_date_range` returns `(null, null)` exactly when AT
LEAST ONE of the two candidate lists is empty; when both are nonempty it
returns the minimum of the min-candidates paired with the maximum of the
max-candidates; and an interval row (both keys present) whose two values
are both null contributes nothing and is not treated as a point row. -/
theorem claim_C2 (data : List (Row Int)) (row : Row Int) (rest : List (Row Int))
    (hf : hasKey row "fromdate" = true) (ht : hasKey row "todate" = true)
    (hfn : rowGet row "fromdate" = none) (htn : rowGet row "todate" = none) :
    (get_date_range data = (none, none) ↔
      (date_candidates data).1 = [] ∨ (date_candidates data).2 = [])
    ∧ ((date_candidates data).1 ≠ [] → (date_candidates data).2 ≠ [] →
        ∃ a b, get_date_range data = (some a, some b)
          ∧ a ∈ (date_candidates data).1
          ∧ (∀ x ∈ (date_candidates data).1, a ≤ x)
          ∧ b ∈ (date_candidates data).2
          ∧ (∀ y ∈ (date_candidates data).2, y ≤ b))
    ∧ date_candidates (row :: rest) = date_candidates rest := by
  refine ⟨?_, ?_, ?_⟩
  · simp only [get_date_range]
    split
    next h =>
      simp only [Bool.or_eq_true] at h
      rcases h with h1 | h1
      · simp [List.isEmpty_iff.mp h1]
      · simp [List.isEmpty_iff.mp h1]
    next h =>
      have h' : ¬ ((date_candidates data).1 = [] ∨ (date_candidates data).2 = []) := by
        simp only [Bool.or_eq_true, List.isEmpty_iff] at h
        exact h
      have h1 : (date_candidates data).1 ≠ [] := fun hc => h' (Or.inl hc)
      obtain ⟨a, ha, _, _⟩ := listMin_spec _ h1
      have h2 : (date_candidates data).2 ≠ [] := fun hc => h' (Or.inr hc)
      obtain ⟨b, hb, _, _⟩ := listMax_spec _ h2
      rw [ha, hb]
      simp [h']
  · intro h1 h2
    obtain ⟨a, ha, hamem, hale⟩ := listMin_spec _ h1
    obtain ⟨b, hb, hbmem, hble⟩ := listMax_spec _ h2
    have hcond : ¬ (((date_candidates data).1.isEmpty
        || (date_candidates data).2.isEmpty) = true) := by
      simp only [Bool.or_eq_true, List.isEmpty_iff]
      rintro (h | h)
      · exact h1 h
      · exact h2 h
    refine ⟨a, b, ?_, hamem, hale, hbmem, hble⟩
    simp only [get_date_range]
    rw [if_neg hcond, ha, hb]
  · have hrc : row_candidates row = ([], []) := by
      simp [row_candidates, hf, ht, hfn, htn, optToList]
    simp [date_candidates, hrc]

/-- Witness for C2 at a both-null interval row consed onto a point row. -/
theorem claim_C2_witness :
    (hasKey [("fromdate", (none : Option Int)), ("todate", (none : Option Int))]
        "fromdate" = true
      ∧ hasKey [("fromdate", (none : Option Int)), ("todate", (none : Option Int))]
        "todate" = true
      ∧ rowGet [("fromdate", (none : Option Int)), ("todate", (none : Option Int))]
        "fromdate" = none
      ∧ rowGet [("fromdate", (none : Option Int)), ("todate", (none : Option Int))]
        "todate" = none)
    ∧ date_candidates
        ([("fromdate", (none : Option Int)), ("todate", (none : Option Int))] ::
          [[("date", some (3:Int))]]) =
        date_candidates [[("date", some (3:Int))]] :=
  ⟨⟨by decide, by decide, by decide, by decide⟩,
    (claim_C2 [[("date", some (3:Int))]]
      [("fromdate", none), ("todate", none)] [[("date", some (3:Int))]]
      (by decide) (by decide) (by decide) (by decide)).2.2⟩

/-- C3 counterexample: two date-bearing rows (one contributing only a
min-candidate 10, one only a max-candidate 3) make `get_date_range` return
`(10, 3)` with min > max, refuting the claimed `min ≤ max`. -/
theorem claim_C3_cex :
    get_date_range [[("fromdate", some (10:Int)), ("todate", (none : Option Int))],
        [("fromdate", (none : Option Int)), ("todate", some (3:Int))]] =
      (some 10, some 3)
    ∧ ¬ ((10:Int) ≤ (3:Int)) := by
  decide

/-- C3 (amended): whenever some value belongs to BOTH candidate sets (as
any point row guarantees), `get_date_range` returns a pair `(min, max)`
with `min` a member of the min-candidates, `max` a member of the
max-candidates, and `min ≤ max`. -/
theorem claim_C3 (data : List (Row Int)) (d : Int)
    (hd1 : d ∈ (date_candidates data).1) (hd2 : d ∈ (date_candidates data).2) :
    ∃ a b, get_date_range data = (some a, some b)
      ∧ a ∈ (date_candidates data).1 ∧ b ∈ (date_candidates data).2 ∧ a ≤ b := by
  have h1 : (date_candidates data).1 ≠ [] := List.ne_nil_of_mem hd1
  have h2 : (date_candidates data).2 ≠ [] := List.ne_nil_of_mem hd2
  obtain ⟨a, ha, hamem, hale⟩ := listMin_spec _ h1
  obtain ⟨b, hb, hbmem, hble⟩ := listMax_spec _ h2
  have hcond : ¬ (((date_candidates data).1.isEmpty
      || (date_candidates data).2.isEmpty) = true) := by
    simp only [Bool.or_eq_true, List.isEmpty_iff]
    rintro (h | h)
    · exact h1 h
    · exact h2 h
  refine ⟨a, b, ?_, hamem, hbmem, le_trans (hale d hd1) (hble d hd2)⟩
  simp only [get_date_range]
  rw [if_neg hcond, ha, hb]

/-- Witness for C3 at a point row plus a proper interval row. -/
theorem claim_C3_witness :
    ((4:Int) ∈ (date_candidates [[("date", some (4:Int))],
        [("fromdate", some (1:Int)), ("todate", some (9:Int))]]).1
      ∧ (4:Int) ∈ (date_candidates [[("date", some (4:Int))],
        [("fromdate", some (1:Int)), ("todate", some (9:Int))]]).2)
    ∧ ∃ a b, get_date_range [[("date", some (4:Int))],
          [("fromdate", some (1:Int)), ("todate", some (9:Int))]] =
          (some a, some b)
        ∧ a ∈ (date_candidates [[("date", some (4:Int))],
            [("fromdate", some (1:Int)), ("todate", some (9:Int))]]).1
        ∧ b ∈ (date_candidates [[("date", some (4:Int))],
            [("fromdate", some (1:Int)), ("todate", some (9:Int))]]).2
        ∧ a ≤ b :=
  ⟨⟨by decide, by decide⟩,
    claim_C3 [[("date", some (4:Int))],
      [("fromdate", some (1:Int)), ("todate", some (9:Int))]] 4
      (by decide) (by decide)⟩

/-- C4 counterexample: `get_disruptions` (unlike the other retrievals)
performs no `ObjectId` pop, so its output rows and its geometry
collection's properties retain the service-internal key. -/
theorem claim_C4_cex :
    (get_disruptions 1000
        [[{ properties := some [("ObjectId", some (1:Int)), ("portid", some 7)],
            geometry := () }]]).1 =
      [[("ObjectId", some (1:Int)), ("portid", some 7)]]
    ∧ hasKey [("ObjectId", some (1:Int)), ("portid", some 7)] "ObjectId" = true
    ∧ (get_disruptions 1000
        [[{ properties := some [("ObjectId", some (1:Int)), ("portid", some 7)],
            geometry := () }]]).2.features.map GeoFeature.properties =
      [some [("ObjectId", some (1:Int)), ("portid", some 7)]] := by
  decide

/-- C4 (amended): after normalization no row output by `get_ports`,
`get_chokepoints`, `get_daily_chokepoints` or `get_daily_ports` contains
the service-internal key `ObjectId`, and no properties map in the
ports/chokepoints geometry collections contains it; the `get_disruptions`
output retains the key (see the counterexample) and it is stripped from
the disruption ROWS only inside `generate_disruptions_dataset`, after the
GeoJSON staging file has already been serialized from the unstripped
feature collection. -/
theorem claim_C4 {γ : Type} (limit : Nat) :
    (∀ (pages : List (List (GeoFeature γ Int))),
      (∀ r ∈ (get_ports limit pages).1, hasKey r "ObjectId" = false)
      ∧ (∀ f ∈ (get_ports limit pages).2.features,
          ∀ props, f.properties = some props → hasKey props "ObjectId" = false)
      ∧ (∀ r ∈ (get_chokepoints limit pages).1, hasKey r "ObjectId" = false)
      ∧ (∀ f ∈ (get_chokepoints limit pages).2.features,
          ∀ props, f.properties = some props → hasKey props "ObjectId" = false))
    ∧ (∀ (dpages : List (List (DailyFeature Int))),
        ∀ r ∈ get_daily_chokepoints limit dpages, hasKey r "ObjectId" = false)
    ∧ (∀ (responses : List (Except Unit (List (DailyFeature Int)) ×
          Except Unit (List (DailyFeature Int)))) rows2 k,
        get_daily_ports limit responses = Except.ok (rows2, k) →
        ∀ r ∈ rows2, hasKey r "ObjectId" = false)
    ∧ (∀ (drows : List (Row Int)) (geo : FeatureCollection γ Int)
        (ds : GeneratedDataset γ Int),
        generate_disruptions_dataset drows geo = some ds →
        ∀ r ∈ ds.csv_rows, hasKey r "ObjectId" = false) := by
  have hrow : ∀ (l : List (GeoFeature γ Int)) (r : Row Int),
      r ∈ (l.map process_port_feature).map Prod.snd →
      hasKey r "ObjectId" = false := by
    intro l r hr
    rw [List.mem_map] at hr
    obtain ⟨pf, hpf, rfl⟩ := hr
    rw [List.mem_map] at hpf
    obtain ⟨f, _, rfl⟩ := hpf
    exact hasKey_eraseKey _ _
  have hfeat : ∀ (l : List (GeoFeature γ Int)) (f' : GeoFeature γ Int),
      f' ∈ (l.map process_port_feature).map Prod.fst →
      ∀ props, f'.properties = some props → hasKey props "ObjectId" = false := by
    intro l f' hf' props hp
    rw [List.mem_map] at hf'
    obtain ⟨pf, hpf, rfl⟩ := hf'
    rw [List.mem_map] at hpf
    obtain ⟨f, _, rfl⟩ := hpf
    have hre : (process_port_feature f).1.properties =
        some (eraseKey (f.properties.getD []) "ObjectId") := rfl
    rw [hre] at hp
    rw [← Option.some.inj hp]
    exact hasKey_eraseKey _ _
  have hsorted : ∀ (l : List (Row Int)) (r : Row Int),
      r ∈ sort_daily_rows (l.map convert_daily_row) →
      hasKey r "ObjectId" = false := by
    intro l r hr
    rw [sort_daily_rows, List.mem_insertionSort, List.mem_map] at hr
    obtain ⟨s, _, rfl⟩ := hr
    exact hasKey_eraseKey _ _
  refine ⟨fun pages => ⟨hrow _, hfeat _, hrow _, hfeat _⟩, ?_, ?_, ?_⟩
  · intro dpages r hr
    exact hsorted _ r hr
  · intro responses rows2 k hok r hr
    cases hfd : fetch_daily_from limit responses with
    | error e =>
      rw [get_daily_ports, hfd] at hok
      exact Except.noConfusion hok
    | ok p =>
      rw [get_daily_ports, hfd] at hok
      simp only [Except.map, Except.ok.injEq, Prod.mk.injEq] at hok
      rw [← hok.1] at hr
      exact hsorted _ r hr
  · intro drows geo ds hok r hr
    cases drows with
    | nil => exact Option.noConfusion hok
    | cons first restRows =>
      simp only [generate_disruptions_dataset, Option.some.injEq] at hok
      rw [← hok] at hr
      simp only at hr
      rw [List.mem_map] at hr
      obtain ⟨s, _, rfl⟩ := hr
      exact hasKey_eraseKey _ _

/-- Witness for C4: a concrete ports page whose single output row has had
`ObjectId` stripped. -/
theorem claim_C4_witness :
    [("portid", some (7:Int))] ∈ (get_ports 1000
        [[({ properties := some [("ObjectId", some (1:Int)), ("portid", some 7)],
             geometry := () } : GeoFeature Unit Int)]]).1
    ∧ hasKey [("portid", some (7:Int))] "ObjectId" = false :=
  ⟨by decide,
    ((claim_C4 1000).1
        [[({ properties := some [("ObjectId", some (1:Int)), ("portid", some 7)],
             geometry := () } : GeoFeature Unit Int)]]).1
      [("portid", some 7)] (by decide)⟩

/-- C5 counterexample: `get_port_countries` is case-sensitive and
case-preserving, so lower-case codes sort and return in lower case, not as
`["ABW", "USA"]`. -/
theorem claim_C5_cex :
    get_port_countries [[("ISO3", some "usa")], [("ISO3", some "abw")],
        [("ISO3", some "usa")]] = ["abw", "usa"]
    ∧ (["abw", "usa"] : List String) ≠ ["ABW", "USA"] := by
  decide

/-- C5 (amended): `get_port_countries` returns the distinct (exact-value,
case-sensitive) non-empty `ISO3` values in ascending lexical order; the
claimed example holds for codes appearing literally as "USA"/"ABW". -/
theorem claim_C5 (features : List (Row String)) (s : String) :
    (get_port_countries features).Sorted strLe
    ∧ (get_port_countries features).Nodup
    ∧ (s ∈ get_port_countries features ↔
        ∃ f ∈ features, rowGet f "ISO3" = some s ∧ s ≠ "")
    ∧ get_port_countries [[("ISO3", some "USA")], [("ISO3", some "ABW")],
        [("ISO3", some "USA")]] = ["ABW", "USA"] := by
  haveI htot : IsTotal String strLe :=
    ⟨fun a b => charListLe_total a.data b.data⟩
  haveI htrans : IsTrans String strLe :=
    ⟨fun a b c h1 h2 => charListLe_trans a.data b.data c.data h1 h2⟩
  refine ⟨List.sorted_insertionSort _ _, ?_, ?_, by decide⟩
  · exact ((List.perm_insertionSort _ _).nodup_iff).mpr (List.nodup_dedup _)
  · rw [get_port_countries, List.mem_insertionSort, List.mem_dedup]
    exact mem_collectISO3 s features

/-- C6: for row lists where every row carries a date, the daily sort (used
by `get_daily_chokepoints` and `get_daily_ports`) returns a permutation of
its input ordered by the `date` field descending, and the sort is stable:
rows with equal dates keep their original relative order (the filter at
any date value is unchanged).  The last two conjuncts identify the rows
returned by the two endpoint operations with this sort applied to their
converted accumulated rows. -/
theorem claim_C6 (rows : List (Row Int)) (d : Int)
    (_hdates : ∀ r ∈ rows, (rowGet r "date").isSome = true) :
    List.Perm (sort_daily_rows rows) rows
    ∧ (sort_daily_rows rows).Sorted dateGE
    ∧ (sort_daily_rows rows).filter (fun r => dateKey r == d) =
        rows.filter (fun r => dateKey r == d)
    ∧ (∀ (limit : Nat) (dpages : List (List (DailyFeature Int))),
        get_daily_chokepoints limit dpages =
          sort_daily_rows (((fetch_pages limit dpages).2.map
            (fun f => f.attributes.getD [])).map convert_daily_row))
    ∧ (∀ (limit : Nat)
        (responses : List (Except Unit (List (DailyFeature Int)) ×
          Except Unit (List (DailyFeature Int)))) (rows2 : List (Row Int))
        (k : Nat),
        get_daily_ports limit responses = Except.ok (rows2, k) →
        ∃ raw, rows2 = sort_daily_rows raw) := by
  refine ⟨List.perm_insertionSort _ _, List.sorted_insertionSort _ _, ?_,
    fun limit dpages => rfl, ?_⟩
  · apply filter_insertionSort
    intro a b ha hb
    have ha2 : dateKey a = d := by simpa using ha
    have hb2 : dateKey b = d := by simpa using hb
    show dateKey b ≤ dateKey a
    rw [ha2, hb2]
  · intro limit responses rows2 k hok
    cases hfd : fetch_daily_from limit responses with
    | error e =>
      rw [get_daily_ports, hfd] at hok
      exact Except.noConfusion hok
    | ok p =>
      rw [get_daily_ports, hfd] at hok
      simp only [Except.map, Except.ok.injEq, Prod.mk.injEq] at hok
      exact ⟨_, hok.1.symm⟩

/-- Witness for C6 on three concrete rows, two sharing the date 1. -/
theorem claim_C6_witness :
    (∀ r ∈ ([[("date", some (1:Int))], [("date", some (5:Int))],
        [("date", some (1:Int)), ("x", some (9:Int))]] : List (Row Int)),
      (rowGet r "date").isSome = true)
    ∧ List.Perm (sort_daily_rows [[("date", some (1:Int))],
        [("date", some (5:Int))], [("date", some (1:Int)), ("x", some (9:Int))]])
        [[("date", some (1:Int))], [("date", some (5:Int))],
          [("date", some (1:Int)), ("x", some (9:Int))]]
    ∧ (sort_daily_rows [[("date", some (1:Int))], [("date", some (5:Int))],
          [("date", some (1:Int)), ("x", some (9:Int))]]).filter
          (fun r => dateKey r == 1) =
        ([[("date", some (1:Int))], [("date", some (5:Int))],
          [("date", some (1:Int)), ("x", some (9:Int))]] : List (Row Int)).filter
          (fun r => dateKey r == 1) :=
  ⟨by decide,
    (claim_C6 [[("date", some (1:Int))], [("date", some (5:Int))],
      [("date", some (1:Int)), ("x", some (9:Int))]] 1 (by decide)).1,
    (claim_C6 [[("date", some (1:Int))], [("date", some (5:Int))],
      [("date", some (1:Int)), ("x", some (9:Int))]] 1 (by decide)).2.2.1⟩

/-- C7: every dataset-generation operation returns `None` (producing no
dataset and no resource, and raising no error) when its input row list is
empty. -/
theorem claim_C7 {γ : Type} (g : FeatureCollection γ Int) (cname : String)
    (cok : Bool) :
    generate_ports_dataset [] g = none
    ∧ generate_chokepoints_dataset [] g = none
    ∧ generate_daily_chokepoints_dataset [] = none
    ∧ generate_daily_ports_dataset cname cok [] = none
    ∧ generate_disruptions_dataset [] g = none :=
  ⟨rfl, rfl, rfl, rfl, rfl⟩

/-- C8: on the `get_daily_ports` path, a failed first parse triggers
exactly one direct re-request; if the second parse also fails the ORIGINAL
error is propagated (independently of the rest of the page sequence); if
it succeeds, its data is used and the loop continues (here: a full page
followed by the remaining responses, with the diagnostic-retry count
incremented once); no request ever issues more than one retry. -/
theorem claim_C8 {ε α : Type} (e e2 : ε) (d : List α) (limit : Nat)
    (rest : List (Except ε (List α) × Except ε (List α)))
    (hne : d.isEmpty = false) (hfull : ¬ d.length < limit) :
    try_parse_page (Except.error e) (Except.ok d) = Except.ok (d, 1)
    ∧ try_parse_page (Except.error e) (Except.error e2) =
        (Except.error e : Except ε (List α × Nat))
    ∧ (try_parse_page (Except.ok d) (Except.ok d) :
        Except ε (List α × Nat)) = Except.ok (d, 0)
    ∧ (∀ (pr sr : Except ε (List α)) (p : List α) (k : Nat),
        try_parse_page pr sr = Except.ok (p, k) → k ≤ 1)
    ∧ fetch_daily_from limit ((Except.error e, Except.ok d) :: rest) =
        (fetch_daily_from limit rest).map (fun p => (d ++ p.1, 1 + p.2))
    ∧ fetch_daily_from limit ((Except.error e, Except.error e2) :: rest) =
        Except.error e := by
  refine ⟨rfl, rfl, rfl, ?_, ?_, rfl⟩
  · intro pr sr p k h
    cases pr with
    | ok da =>
      simp only [try_parse_page, Except.ok.injEq, Prod.mk.injEq] at h
      obtain ⟨-, hk⟩ := h
      omega
    | error exc =>
      cases sr with
      | ok da =>
        simp only [try_parse_page, Except.ok.injEq, Prod.mk.injEq] at h
        obtain ⟨-, hk⟩ := h
        omega
      | error e3 =>
        simp only [try_parse_page] at h
        exact Except.noConfusion h
  · cases hfd : fetch_daily_from limit rest with
    | error e3 =>
      simp [fetch_daily_from, try_parse_page, hne, hfull, hfd, Except.map]
    | ok p =>
      obtain ⟨tail, k2⟩ := p
      simp [fetch_daily_from, try_parse_page, hne, hfull, hfd, Except.map]

/-- Witness for C8: a full page `[7]` at page size 1, recovered by the
diagnostic retry, continues the loop over an empty remainder. -/
theorem claim_C8_witness :
    (([(7:Nat)] : List Nat).isEmpty = false
      ∧ ¬ ([(7:Nat)] : List Nat).length < 1)
    ∧ fetch_daily_from 1
        [((Except.error 1 : Except Nat (List Nat)), Except.ok [7])] =
      (fetch_daily_from 1
        ([] : List (Except Nat (List Nat) × Except Nat (List Nat)))).map
        (fun p => ([7] ++ p.1, 1 + p.2)) :=
  ⟨⟨by decide, by decide⟩,
    (claim_C8 (1:Nat) 2 [(7:Nat)] 1 [] (by decide) (by decide)).2.2.2.2.1⟩

/-- C9: for `get_ports`, `get_chokepoints` and `get_disruptions`, the
geometry collection has exactly one feature per returned row, pairwise in
the same order, and the i-th feature's properties equal the i-th row. -/
theorem claim_C9 {γ α : Type} (limit : Nat)
    (pages : List (List (GeoFeature γ α))) :
    ((get_ports limit pages).2.features.map GeoFeature.properties =
      (get_ports limit pages).1.map some)
    ∧ (get_ports limit pages).2.features.length = (get_ports limit pages).1.length
    ∧ ((get_chokepoints limit pages).2.features.map GeoFeature.properties =
      (get_chokepoints limit pages).1.map some)
    ∧ (get_chokepoints limit pages).2.features.length =
        (get_chokepoints limit pages).1.length
    ∧ ((get_disruptions limit pages).2.features.map GeoFeature.properties =
      (get_disruptions limit pages).1.map some)
    ∧ (get_disruptions limit pages).2.features.length =
        (get_disruptions limit pages).1.length := by
  refine ⟨?_, ?_, ?_, ?_, ?_, ?_⟩
  · simp only [get_ports, List.map_map]
    rfl
  · simp [get_ports]
  · simp only [get_chokepoints, List.map_map]
    rfl
  · simp [get_chokepoints]
  · simp only [get_disruptions, List.map_map]
    rfl
  · simp [get_disruptions]

/-- C10: a row carrying exactly one of the `fromdate`/`todate` keys falls
into the point-row branch of `get_date_range`: it contributes its non-null
`date` value (if any) to both candidate lists, and its `fromdate` or
`todate` value is ignored entirely. -/
theorem claim_C10 (row : Row Int) (rest : List (Row Int))
    (h : hasKey row "fromdate" ≠ hasKey row "todate") :
    row_candidates row =
      (optToList (rowGet row "date"), optToList (rowGet row "date"))
    ∧ date_candidates (row :: rest) =
      (optToList (rowGet row "date") ++ (date_candidates rest).1,
        optToList (rowGet row "date") ++ (date_candidates rest).2) := by
  have hcond : (hasKey row "fromdate" && hasKey row "todate") = false := by
    cases hf : hasKey row "fromdate" <;> cases ht : hasKey row "todate" <;>
      simp_all
  have hrc : row_candidates row =
      (optToList (rowGet row "date"), optToList (rowGet row "date")) := by
    rw [row_candidates, hcond]
    cases hD : rowGet row "date" <;> simp [optToList]
  refine ⟨hrc, ?_⟩
  simp [date_candidates, hrc]

/-- Witness for C10: a row with `fromdate` but no `todate` and a date 7. -/
theorem claim_C10_witness :
    (hasKey [("fromdate", some (3:Int)), ("date", some (7:Int))] "fromdate" ≠
      hasKey [("fromdate", some (3:Int)), ("date", some (7:Int))] "todate")
    ∧ date_candidates ([("fromdate", some (3:Int)), ("date", some (7:Int))] ::
        [[("date", some (2:Int))]]) =
      (optToList (rowGet [("fromdate", some (3:Int)), ("date", some (7:Int))]
          "date") ++ (date_candidates [[("date", some (2:Int))]]).1,
        optToList (rowGet [("fromdate", some (3:Int)), ("date", some (7:Int))]
          "date") ++ (date_candidates [[("date", some (2:Int))]]).2) :=
  ⟨by decide,
    (claim_C10 [("fromdate", some (3:Int)), ("date", some (7:Int))]
      [[("date", some (2:Int))]] (by decide)).2⟩

end Portwatch
